import Mathlib

/-!
Verification development for the real-time chat module of the speed-app
repository (src/lib/chat.ts together with the chat tables, unique index,
row-level policies and triggers of the supabase migration
20250326194407_azure_mud.sql).

The TypeScript hook `useChat` and the SQL schema are shallowly embedded:
database state is an explicit `DB` record, the asynchronous backend calls
become pure functions over `DB`, the local React state of a chat session
becomes explicit record values, and the outcomes of network round trips
that can fail are injected as parameters.  Identifiers (uuids) are opaque,
linearly ordered values and are modelled as naturals; timestamps are
naturals counting milliseconds.
-/

namespace SpeedApp

/-- A row of the `chat_rooms` table (migration lines 103 to 111, plus the
`ChatRoom` type of chat.ts). -/
structure ChatRoom where
  id : Nat
  participant1_id : Nat
  participant2_id : Nat
  created_at : Nat
  last_message_at : Nat
  updated_at : Nat
deriving Repr, DecidableEq

/-- A row of the `chat_messages` table (migration lines 114 to 122, and the
`ChatMessage` type of chat.ts). -/
structure ChatMessage where
  id : Nat
  room_id : Nat
  sender_id : Nat
  content : String
  created_at : Nat
  read_at : Option Nat
  deleted_at : Option Nat
deriving Repr, DecidableEq

/-- A row of the `typing_indicators` table (migration lines 125 to 130). -/
structure TypingIndicator where
  room_id : Nat
  user_id : Nat
  updated_at : Nat
deriving Repr, DecidableEq

/-- An entry of the local `messages` list of a chat session.  The optimistic
entry appended by `sendMessage` is a `Partial<ChatMessage>` whose `id`,
`read_at` and `deleted_at` fields are absent, hence `id` is optional here;
rows echoed from the store always carry their server-assigned id. -/
structure LocalMessage where
  id : Option Nat
  room_id : Nat
  sender_id : Nat
  content : String
  created_at : Nat
  read_at : Option Nat
  deleted_at : Option Nat
deriving Repr, DecidableEq

/-- View of a stored row as a local list entry (the realtime payload cast
`payload.new as ChatMessage` in chat.ts). -/
def ChatMessage.toLocal (m : ChatMessage) : LocalMessage :=
  ⟨some m.id, m.room_id, m.sender_id, m.content, m.created_at, m.read_at, m.deleted_at⟩

/-- Backend database state: the three chat tables plus id supplies for
server-assigned primary keys. -/
structure DB where
  rooms : List ChatRoom
  messages : List ChatMessage
  typing : List TypingIndicator
  nextRoomId : Nat
  nextMessageId : Nat
deriving Repr, DecidableEq

/-- Backend (Postgres) error outcomes distinguished by chat.ts: a unique
constraint violation carries error code 23505; anything else is an opaque
failure. -/
inductive DbError where
  | uniqueViolation
  | failure
deriving Repr, DecidableEq

/-- Errors thrown by `initializeChat` in chat.ts. -/
inductive ChatError where
  | dbError (e : DbError)
  | recoveryFailed
  | initFailed
deriving Repr, DecidableEq

/-! ## Room resolver (chat.ts lines 40 to 100) -/

/-- The disjunctive filter of the room lookup query (chat.ts lines 46 to 49):
the row matches when its participant columns hold `u` and `v` in either
order. -/
def roomMatchesPair (u v : Nat) (r : ChatRoom) : Bool :=
  (r.participant1_id == u && r.participant2_id == v) ||
  (r.participant1_id == v && r.participant2_id == u)

/-- The room lookup query of chat.ts lines 43 to 52: filter on the pair in
either order, order by creation time ascending, take at most one row. -/
def findRoom (db : DB) (u v : Nat) : Option ChatRoom :=
  ((db.rooms.filter (roomMatchesPair u v)).mergeSort
    (fun a b => a.created_at ≤ b.created_at)).head?

/-- Equality of unordered participant pairs, exactly the key of the unique
index `chat_rooms_participants_unique` on
(LEAST(participant1_id, participant2_id),
 GREATEST(participant1_id, participant2_id)) of migration lines 25 to 28. -/
def unorderedPairEq (a b c d : Nat) : Bool :=
  (min a b == min c d) && (max a b == max c d)

/-- Inserting a `chat_rooms` row: the unique index rejects the insert with a
unique constraint violation when a row with the same unordered participant
pair already exists; otherwise the row is stored with a fresh
server-assigned id and default timestamps. -/
def insertRoom (db : DB) (p1 p2 : Nat) (now : Nat) :
    Except DbError (ChatRoom × DB) :=
  if db.rooms.any (fun r =>
      unorderedPairEq r.participant1_id r.participant2_id p1 p2) then
    .error .uniqueViolation
  else
    let r : ChatRoom := ⟨db.nextRoomId, p1, p2, now, now, now⟩
    .ok (r, { db with rooms := db.rooms ++ [r], nextRoomId := db.nextRoomId + 1 })

/-- The creation branch of `initializeChat` (chat.ts lines 56 to 96), entered
when the lookup found no room: the participants are written in canonical
sorted order; a unique constraint violation (error code 23505) is recovered
by re-querying for the now-existing room, and a failed recovery throws the
error of chat.ts line 90. -/
def resolveRoomCreate (db : DB) (selfId otherId : Nat) (now : Nat) :
    Except ChatError (ChatRoom × DB) :=
  let p1 := min selfId otherId
  let p2 := max selfId otherId
  match insertRoom db p1 p2 now with
  | .ok (r, db1) => .ok (r, db1)
  | .error .uniqueViolation =>
      match findRoom db p1 p2 with
      | some r => .ok (r, db)
      | none => .error .recoveryFailed
  | .error e => .error (.dbError e)

/-- Room resolution of `initializeChat` (chat.ts lines 40 to 100): always try
to find an existing room first, and only create one when the lookup comes
back empty. -/
def resolveRoom (db : DB) (selfId otherId : Nat) (now : Nat) :
    Except ChatError (ChatRoom × DB) :=
  match findRoom db selfId otherId with
  | some r => .ok (r, db)
  | none => resolveRoomCreate db selfId otherId now

/-- Number of rooms stored for the unordered pair {u, v}. -/
def pairCount (db : DB) (u v : Nat) : Nat :=
  (db.rooms.filter (roomMatchesPair u v)).length

/-- The invariant enforced by the unique index
`chat_rooms_participants_unique`: no two stored rooms share an unordered
participant pair. -/
def roomsUnique (db : DB) : Prop :=
  db.rooms.Pairwise (fun r s =>
    ¬(min r.participant1_id r.participant2_id =
        min s.participant1_id s.participant2_id ∧
      max r.participant1_id r.participant2_id =
        max s.participant1_id s.participant2_id))

instance (db : DB) : Decidable (roomsUnique db) := by
  unfold roomsUnique
  infer_instance

/-! ## Message history (chat.ts lines 104 to 112) -/

/-- The history query of `initializeChat`: all `chat_messages` rows of the
room, ordered by creation time ascending.  No filter on `deleted_at` is
applied, so soft-deleted rows are returned as well. -/
def listMessages (db : DB) (roomId : Nat) : List ChatMessage :=
  (db.messages.filter (fun m => m.room_id == roomId)).mergeSort
    (fun a b => a.created_at ≤ b.created_at)

/-! ## Realtime subscriptions and the effect lifecycle
(chat.ts lines 36 to 165) -/

/-- The two realtime feeds a chat session opens. -/
inductive FeedKind where
  | messagesFeed
  | typingFeed
deriving Repr, DecidableEq

/-- A realtime channel subscription scoped to one room. -/
structure Subscription where
  room_id : Nat
  kind : FeedKind
deriving Repr, DecidableEq

/-- The handler of the messages feed (chat.ts lines 125 to 127): every
delivered INSERT payload is appended to the local list unconditionally. -/
def onMessageInsert (msgs : List LocalMessage) (payload : ChatMessage) :
    List LocalMessage :=
  msgs ++ [payload.toLocal]

/-- The cleanup closure built at chat.ts lines 154 to 157: calling it
unsubscribes both feeds of the room. -/
def initializeChatCleanup (roomId : Nat) :
    List Subscription → List Subscription :=
  fun subs => subs.filter (fun s =>
    !(s == ⟨roomId, .messagesFeed⟩ || s == ⟨roomId, .typingFeed⟩))

/-- The cleanup React registers for the `useEffect` of chat.ts lines 36 to
165.  With no user the callback returns early; otherwise it invokes the
async `initializeChat()` and discards the returned promise, so the cleanup
closure built inside `initializeChat` is never handed to React and the
callback itself returns no cleanup in either case. -/
def useChatEffectCleanup (user : Option Nat) :
    Option (List Subscription → List Subscription) :=
  match user with
  | none => none
  | some _ => none

/-- Closing the conversation view: React runs the registered effect cleanup,
if there is one, over the set of active subscriptions. -/
def closeView (registered : Option (List Subscription → List Subscription))
    (active : List Subscription) : List Subscription :=
  match registered with
  | some f => f active
  | none => active

/-! ## Session initialization (chat.ts lines 36 to 165) -/

/-- The network round trips of `initializeChat` whose failure the
environment may inject. -/
inductive InitStep where
  | roomResolution
  | historyLoad
deriving Repr, DecidableEq

/-- The local React state of the hook after `initializeChat` finishes,
together with the subscriptions it opened and the error it surfaced to the
caller, if any. -/
structure InitResult where
  room : Option ChatRoom
  messages : List LocalMessage
  loading : Bool
  subs : List Subscription
  surfacedError : Option ChatError
deriving Repr, DecidableEq

/-- Shallow embedding of the whole of `initializeChat` (chat.ts lines 40 to
162).  `failAt` injects a backend failure of the named round trip; a thrown
error lands in the catch block of lines 158 to 161, which logs it to the
console and clears the loading flag, surfacing nothing to the caller.
State already set before the failure point is kept: a failure of the
history load happens after `setRoom` has run. -/
def initializeChat (db : DB) (selfId otherId : Nat) (now : Nat)
    (failAt : Option InitStep) : InitResult :=
  if failAt = some .roomResolution then
    { room := none, messages := [], loading := false, subs := [],
      surfacedError := none }
  else
    match resolveRoom db selfId otherId now with
    | .error _ =>
        { room := none, messages := [], loading := false, subs := [],
          surfacedError := none }
    | .ok (rm, db1) =>
        if failAt = some .historyLoad then
          { room := some rm, messages := [], loading := false, subs := [],
            surfacedError := none }
        else
          { room := some rm,
            messages := (listMessages db1 rm.id).map ChatMessage.toLocal,
            loading := false,
            subs := [⟨rm.id, .messagesFeed⟩, ⟨rm.id, .typingFeed⟩],
            surfacedError := none }

/-! ## Send with optimistic append and rollback
(chat.ts lines 167 to 198) -/

/-- Storing a `chat_messages` row, including the `update_chat_room_timestamp`
trigger of migration lines 212 to 227 that refreshes the last-activity
timestamps of the room. -/
def appendMessageRow (db : DB) (roomId : Nat) (senderId : Nat)
    (content : String) (now : Nat) : DB :=
  let m : ChatMessage := ⟨db.nextMessageId, roomId, senderId, content, now, none, none⟩
  { db with
    messages := db.messages ++ [m],
    nextMessageId := db.nextMessageId + 1,
    rooms := db.rooms.map (fun r =>
      if r.id == roomId then { r with last_message_at := now, updated_at := now }
      else r) }

/-- Shallow embedding of `sendMessage`.  With no resolved room or no
authenticated user it returns at once.  Otherwise it appends the optimistic
entry (chat.ts line 180), issues the insert, and on a write failure removes
every local entry whose content and sender match the failed send (the
filter of chat.ts lines 189 to 191) and rethrows the error to the caller.
`writeResult` injects the outcome of the insert round trip. -/
def sendMessage (user : Option Nat) (room : Option ChatRoom)
    (msgs : List LocalMessage) (db : DB) (content : String) (now : Nat)
    (writeResult : Option DbError) :
    List LocalMessage × DB × Option DbError :=
  match room, user with
  | some rm, some uid =>
      let newMessage : LocalMessage := ⟨none, rm.id, uid, content, now, none, none⟩
      let optimistic := msgs ++ [newMessage]
      match writeResult with
      | none => (optimistic, appendMessageRow db rm.id uid content now, none)
      | some e =>
          (optimistic.filter (fun msg =>
              msg.content != content || msg.sender_id != uid),
           db, some e)
  | _, _ => (msgs, db, none)

/-! ## Typing indicator writes (chat.ts lines 200 to 224) -/

/-- The `cleanup_typing_indicators` trigger of migration lines 230 to 243:
after an insert or update of `typing_indicators`, rows older than ten
seconds are deleted. -/
def typingSweep (db : DB) (now : Nat) : DB :=
  { db with typing := db.typing.filter (fun ti => now ≤ ti.updated_at + 10000) }

/-- Shallow embedding of `setTyping`.  With no room or user it returns at
once.  `true` upserts the (room, user) row with the current time, keyed on
the primary key (room_id, user_id); `false` deletes the row.  The upsert
fires the cleanup trigger. -/
def setTyping (user : Option Nat) (room : Option ChatRoom) (db : DB)
    (isTyping : Bool) (now : Nat) : DB × Option DbError :=
  match room, user with
  | some rm, some uid =>
      if isTyping then
        let replaced := db.typing.any (fun ti =>
          ti.room_id == rm.id && ti.user_id == uid)
        let rows :=
          if replaced then
            db.typing.map (fun ti =>
              if ti.room_id == rm.id && ti.user_id == uid then
                { ti with updated_at := now }
              else ti)
          else
            db.typing ++ [⟨rm.id, uid, now⟩]
        (typingSweep { db with typing := rows } now, none)
      else
        ({ db with typing := db.typing.filter (fun ti =>
            !(ti.room_id == rm.id && ti.user_id == uid)) }, none)
  | _, _ => (db, none)

/-! ## Read receipts and soft delete (chat.ts lines 226 to 252) -/

/-- Shallow embedding of `markAsRead` (chat.ts lines 226 to 238) together
with the row-level security of `chat_messages`.  With no user it returns at
once.  Otherwise the client issues an update setting `read_at`, filtered by
`id = messageId` and `sender_id = otherUserId`; the sole UPDATE policy on
`chat_messages` ("Users can delete their own messages", migration lines 183
to 190) makes only rows with `sender_id = uid` visible to the update (its
USING clause), so a row is touched only when it passes the client filters
and the policy together.  Every updated row must further satisfy the policy
WITH CHECK clause (`deleted_at` set and `sender_id = uid`); a violation
aborts the statement with an error, which the code neither checks nor
rethrows, so in either branch nothing is surfaced to the caller. -/
def markAsRead (user : Option Nat) (otherUserId : Nat) (db : DB)
    (messageId : Nat) (now : Nat) : DB × Option DbError :=
  match user with
  | none => (db, none)
  | some uid =>
      if (db.messages.filter (fun m =>
            m.id == messageId && m.sender_id == otherUserId &&
            m.sender_id == uid)).any (fun m => m.deleted_at == none) then
        (db, none)
      else
        ({ db with messages := db.messages.map (fun m =>
            if m.id == messageId && m.sender_id == otherUserId &&
                m.sender_id == uid then
              { m with read_at := some now }
            else m) }, none)

/-- Shallow embedding of `deleteMessage`: with no user it returns at once;
otherwise it sets `deleted_at` to the current time on the rows matching
both filters `id = messageId` and `sender_id = user.id`.  A request naming
a message of another sender matches no row and raises no error; matched
rows are updated in place, never removed. -/
def deleteMessage (user : Option Nat) (db : DB) (messageId : Nat)
    (now : Nat) : DB × Option DbError :=
  match user with
  | none => (db, none)
  | some uid =>
      ({ db with messages := db.messages.map (fun m =>
          if m.id == messageId && m.sender_id == uid then
            { m with deleted_at := some now }
          else m) }, none)

/-! ## Client-side typing flag (chat.ts lines 131 to 150)

The typing feed handler sets the local flag to true on every delivered
payload whose `new.user_id` is the other user, and schedules a timer that
clears the flag 3000 milliseconds later.  The event loop therefore applies
a sequence of flag mutations ordered by delivery time: a set at each event
time and a clear at each event time plus 3000. -/

/-- The flag mutations generated by the deliveries at `eventTimes`. -/
def typingActions (eventTimes : List Nat) : List (Nat × Bool) :=
  eventTimes.map (fun t => (t, true)) ++
  eventTimes.map (fun t => (t + 3000, false))

/-- Running a chronologically ordered trace of flag mutations over the
initial flag value `false`: each mutation overwrites the flag. -/
def runTypingTrace (trace : List (Nat × Bool)) : Bool :=
  trace.foldl (fun _ a => a.2) false

/-! ## Lemmas about the room resolver -/

lemma roomMatchesPair_iff (u v : Nat) (r : ChatRoom) :
    roomMatchesPair u v r = true ↔
      (min r.participant1_id r.participant2_id = min u v ∧
       max r.participant1_id r.participant2_id = max u v) := by
  simp only [roomMatchesPair, Bool.or_eq_true, Bool.and_eq_true, beq_iff_eq]
  omega

lemma unorderedPairEq_iff (a b c d : Nat) :
    unorderedPairEq a b c d = true ↔ (min a b = min c d ∧ max a b = max c d) := by
  simp only [unorderedPairEq, Bool.and_eq_true, beq_iff_eq]

/-- The lookup filter depends only on the unordered pair. -/
lemma roomMatchesPair_congr {u v a b : Nat}
    (h1 : min u v = min a b) (h2 : max u v = max a b) (r : ChatRoom) :
    roomMatchesPair u v r = roomMatchesPair a b r := by
  rw [Bool.eq_iff_iff, roomMatchesPair_iff, roomMatchesPair_iff, h1, h2]

lemma findRoom_congr {db : DB} {u v a b : Nat}
    (h1 : min u v = min a b) (h2 : max u v = max a b) :
    findRoom db u v = findRoom db a b := by
  unfold findRoom
  rw [List.filter_congr (fun r _ => roomMatchesPair_congr h1 h2 r)]

lemma findRoom_eq_none_iff {db : DB} {u v : Nat} :
    findRoom db u v = none ↔ db.rooms.filter (roomMatchesPair u v) = [] := by
  unfold findRoom
  rw [List.head?_eq_none_iff]
  constructor
  · intro h
    have hp := List.mergeSort_perm (db.rooms.filter (roomMatchesPair u v))
      (fun a b => a.created_at ≤ b.created_at)
    rw [h] at hp
    exact (hp.symm).eq_nil
  · intro h
    rw [h, List.mergeSort_nil]

lemma findRoom_of_filter_singleton {db : DB} {u v : Nat} {r : ChatRoom}
    (h : db.rooms.filter (roomMatchesPair u v) = [r]) :
    findRoom db u v = some r := by
  unfold findRoom
  rw [h, List.mergeSort_singleton]
  rfl

lemma findRoom_some_mem {db : DB} {u v : Nat} {r : ChatRoom}
    (h : findRoom db u v = some r) :
    r ∈ db.rooms.filter (roomMatchesPair u v) := by
  unfold findRoom at h
  rw [List.head?_eq_some_iff] at h
  obtain ⟨ys, hys⟩ := h
  have : r ∈ (db.rooms.filter (roomMatchesPair u v)).mergeSort
      (fun a b => a.created_at ≤ b.created_at) := by
    rw [hys]; exact List.mem_cons_self r ys
  exact List.mem_mergeSort.mp this

/-- Under the unique-index invariant, at most one stored room matches any
unordered pair. -/
lemma filter_pair_length_le_one (db : DB) (hdb : roomsUnique db)
    (u v : Nat) :
    (db.rooms.filter (roomMatchesPair u v)).length ≤ 1 := by
  have hp := List.Pairwise.filter (roomMatchesPair u v) hdb
  cases hfil : db.rooms.filter (roomMatchesPair u v) with
  | nil => simp
  | cons x t =>
    cases t with
    | nil => simp
    | cons y t2 =>
      exfalso
      rw [hfil] at hp
      have hxy := (List.pairwise_cons.mp hp).1 y (List.mem_cons_self y t2)
      have hx : roomMatchesPair u v x = true := by
        have : x ∈ db.rooms.filter (roomMatchesPair u v) := by
          rw [hfil]; exact List.mem_cons_self x (y :: t2)
        exact (List.mem_filter.mp this).2
      have hy : roomMatchesPair u v y = true := by
        have : y ∈ db.rooms.filter (roomMatchesPair u v) := by
          rw [hfil]
          exact List.mem_cons_of_mem x (List.mem_cons_self y t2)
        exact (List.mem_filter.mp this).2
      rw [roomMatchesPair_iff] at hx hy
      exact hxy ⟨hx.1.trans hy.1.symm, hx.2.trans hy.2.symm⟩

/-- The room row inserted by the creation branch for the pair (selfId,
otherId). -/
def newRoomRow (db : DB) (selfId otherId : Nat) (t : Nat) : ChatRoom :=
  ⟨db.nextRoomId, min selfId otherId, max selfId otherId, t, t, t⟩

lemma roomMatchesPair_newRoomRow (db : DB) (A B : Nat) (t : Nat) :
    roomMatchesPair A B (newRoomRow db A B t) = true := by
  rw [roomMatchesPair_iff]
  show min (min A B) (max A B) = min A B ∧ max (min A B) (max A B) = max A B
  omega

/-- When no room for the pair exists yet, the creation branch inserts the
canonical row and returns it. -/
lemma resolveRoomCreate_of_no_room {db : DB} {A B : Nat} (t : Nat)
    (hnone : db.rooms.filter (roomMatchesPair A B) = []) :
    resolveRoomCreate db A B t = .ok (newRoomRow db A B t,
      { db with rooms := db.rooms ++ [newRoomRow db A B t],
                nextRoomId := db.nextRoomId + 1 }) := by
  have hall : ∀ r ∈ db.rooms, ¬roomMatchesPair A B r = true :=
    List.filter_eq_nil_iff.mp hnone
  have hany : db.rooms.any (fun r =>
      unorderedPairEq r.participant1_id r.participant2_id
        (min A B) (max A B)) = false := by
    rw [List.any_eq_false]
    intro r hr hcontra
    apply hall r hr
    rw [unorderedPairEq_iff] at hcontra
    rw [roomMatchesPair_iff]
    omega
  simp only [resolveRoomCreate, insertRoom, hany, Bool.false_eq_true,
    if_false, newRoomRow]

/-- After the canonical row is inserted into a store that had no room for
the pair, it is the single row the lookup filter returns. -/
lemma filter_after_insert {db : DB} {A B : Nat} (t : Nat)
    (hnone : db.rooms.filter (roomMatchesPair A B) = []) :
    (db.rooms ++ [newRoomRow db A B t]).filter (roomMatchesPair A B) =
      [newRoomRow db A B t] := by
  rw [List.filter_append, hnone]
  simp [List.filter, roomMatchesPair_newRoomRow db A B t]

/-- With the hypotheses of a first contact, the creation branch run by the
second concurrent creator hits the unique constraint and recovers the row
of the first creator. -/
lemma resolveRoomCreate_recovers {db1 : DB} {A B : Nat} {r1 : ChatRoom}
    (t : Nat)
    (hfound : findRoom db1 A B = some r1)
    (hmem : r1 ∈ db1.rooms) :
    resolveRoomCreate db1 B A t = .ok (r1, db1) := by
  have hr1 : roomMatchesPair A B r1 = true := by
    have := findRoom_some_mem hfound
    exact (List.mem_filter.mp this).2
  have hany : db1.rooms.any (fun r =>
      unorderedPairEq r.participant1_id r.participant2_id
        (min B A) (max B A)) = true := by
    rw [List.any_eq_true]
    refine ⟨r1, hmem, ?_⟩
    rw [roomMatchesPair_iff] at hr1
    rw [unorderedPairEq_iff]
    omega
  have hfind : findRoom db1 (min B A) (max B A) = some r1 := by
    rw [findRoom_congr (a := A) (b := B) (by omega) (by omega)]
    exact hfound
  simp only [resolveRoomCreate, insertRoom, hany, if_true, hfind]

/-- C1: for distinct users A and B, resolving the room for (A, B) and for
(B, A) — sequentially in either interleaving, and also as two concurrent
first contacts whose lookups both precede both creation attempts — leaves
exactly one stored room for the unordered pair, both resolutions return
that same room id, and the unique-constraint violation suffered by the
loser of the creation race is recovered by re-querying. -/
theorem resolveRoom_unordered_pair_unique (db : DB) (A B : Nat)
    (t1 t2 : Nat) (hAB : A ≠ B) (hdb : roomsUnique db) :
    (∃ r1 db1 r2,
      resolveRoom db A B t1 = .ok (r1, db1) ∧
      resolveRoom db1 B A t2 = .ok (r2, db1) ∧
      r1.id = r2.id ∧ pairCount db1 A B = 1) ∧
    (findRoom db A B = none →
      ∃ r1 db1 r2,
        resolveRoomCreate db A B t1 = .ok (r1, db1) ∧
        resolveRoomCreate db1 B A t2 = .ok (r2, db1) ∧
        r1.id = r2.id ∧ pairCount db1 A B = 1) := by
  have hsymm : findRoom db B A = findRoom db A B :=
    findRoom_congr (by omega) (by omega)
  cases hfind : findRoom db A B with
  | some r =>
    constructor
    · refine ⟨r, db, r, ?_, ?_, rfl, ?_⟩
      · unfold resolveRoom; rw [hfind]
      · unfold resolveRoom; rw [hsymm, hfind]
      · have hmem := findRoom_some_mem hfind
        have hle := filter_pair_length_le_one db hdb A B
        have hpos : 0 < (db.rooms.filter (roomMatchesPair A B)).length :=
          List.length_pos_of_mem hmem
        unfold pairCount
        omega
    · intro hn
      cases hn
  | none =>
    have hnil : db.rooms.filter (roomMatchesPair A B) = [] :=
      findRoom_eq_none_iff.mp hfind
    set r1 := newRoomRow db A B t1 with hr1def
    set db1 : DB := { db with rooms := db.rooms ++ [r1],
                              nextRoomId := db.nextRoomId + 1 } with hdb1def
    have hfilter1 : db1.rooms.filter (roomMatchesPair A B) = [r1] :=
      filter_after_insert t1 hnil
    have hfound1 : findRoom db1 A B = some r1 :=
      findRoom_of_filter_singleton hfilter1
    have hmem1 : r1 ∈ db1.rooms := by
      show r1 ∈ db.rooms ++ [r1]
      simp
    have hcount : pairCount db1 A B = 1 := by
      unfold pairCount
      rw [hfilter1]
      rfl
    constructor
    · refine ⟨r1, db1, r1, ?_, ?_, rfl, hcount⟩
      · unfold resolveRoom
        rw [hfind]
        exact resolveRoomCreate_of_no_room t1 hnil
      · unfold resolveRoom
        rw [findRoom_congr (a := A) (b := B) (by omega) (by omega), hfound1]
    · intro _
      refine ⟨r1, db1, r1, resolveRoomCreate_of_no_room t1 hnil, ?_, rfl, hcount⟩
      exact resolveRoomCreate_recovers t2 hfound1 hmem1

/-- The empty backend store. -/
def dbEmpty : DB := ⟨[], [], [], 0, 0⟩

/-- Witness for C1 at the concrete first contact of users 0 and 1 over the
empty store. -/
theorem resolveRoom_unordered_pair_unique_witness :
    (0 : Nat) ≠ 1 ∧ roomsUnique dbEmpty ∧
    ((∃ r1 db1 r2,
      resolveRoom dbEmpty 0 1 5 = .ok (r1, db1) ∧
      resolveRoom db1 1 0 9 = .ok (r2, db1) ∧
      r1.id = r2.id ∧ pairCount db1 0 1 = 1) ∧
    (findRoom dbEmpty 0 1 = none →
      ∃ r1 db1 r2,
        resolveRoomCreate dbEmpty 0 1 5 = .ok (r1, db1) ∧
        resolveRoomCreate db1 1 0 9 = .ok (r2, db1) ∧
        r1.id = r2.id ∧ pairCount db1 0 1 = 1)) :=
  ⟨by decide, by decide,
    resolveRoom_unordered_pair_unique dbEmpty 0 1 5 9 (by decide) (by decide)⟩

/-! ## Concrete sample data used to evaluate the operations -/

/-- Concrete room between users 0 and 1. -/
def sampleRoom : ChatRoom := ⟨0, 0, 1, 5, 5, 5⟩

/-- An earlier, server-confirmed local entry: user 0 sent "hi" at time 5,
already acknowledged with server id 10. -/
def priorConfirmed : LocalMessage := ⟨some 10, 0, 0, "hi", 5, none, none⟩

/-- A store holding the sample room and the confirmed row behind
`priorConfirmed`. -/
def dbWithPrior : DB :=
  ⟨[sampleRoom], [⟨10, 0, 0, "hi", 5, none, none⟩], [], 1, 11⟩

/-- The optimistic local entry for a send of "hi" by user 0 at time 9. -/
def optimisticEntry : LocalMessage := ⟨none, 0, 0, "hi", 9, none, none⟩

/-- The server row created for that send, echoed on the messages feed. -/
def echoRow : ChatMessage := ⟨11, 0, 0, "hi", 9, none, none⟩

/-- A store holding one message sent by user 1 (received by user 0). -/
def dbOneFromOther : DB :=
  ⟨[sampleRoom], [⟨10, 0, 1, "hey", 6, none, none⟩], [], 1, 11⟩

/-- A store holding one message sent by user 0. -/
def dbOneFromSelf : DB :=
  ⟨[sampleRoom], [⟨10, 0, 0, "hi", 5, none, none⟩], [], 1, 11⟩

/-! ## C2: rollback after a failed send -/

/-- C2: evaluating `sendMessage` at the failing input.  With the earlier
confirmed entry for "hi" from user 0 in the local list, a failed send of
identical text rolls back through the (content, sender) filter of chat.ts
lines 189 to 191: the earlier confirmed entry — a different entry from the
optimistic one, already acknowledged with server id 10 — is removed
together with the optimistic entry, so the list ends empty instead of being
restored to its pre-send state `[priorConfirmed]`; the error is surfaced to
the caller and no row is created in the store. -/
theorem sendMessage_rollback_removes_prior_confirmed :
    (sendMessage (some 0) (some sampleRoom) [priorConfirmed] dbWithPrior
        "hi" 9 (some .failure)).1 = [] ∧
    (sendMessage (some 0) (some sampleRoom) [priorConfirmed] dbWithPrior
        "hi" 9 (some .failure)).2.1 = dbWithPrior ∧
    (sendMessage (some 0) (some sampleRoom) [priorConfirmed] dbWithPrior
        "hi" 9 (some .failure)).2.2 = some .failure ∧
    priorConfirmed ≠ optimisticEntry ∧
    priorConfirmed ∉ (sendMessage (some 0) (some sampleRoom) [priorConfirmed]
        dbWithPrior "hi" 9 (some .failure)).1 :=
  ⟨by decide, by decide, by decide, by decide, by decide⟩

/-! ## C3: realtime echo of an optimistically held message -/

/-- C3: evaluating the messages-feed handler at the failing input.  When the
realtime INSERT echo of a message its sender already holds optimistically
arrives, the handler of chat.ts lines 125 to 127 appends the payload
unconditionally, so the local list shows two visible entries with the same
sender and content for the one sent message. -/
theorem onMessageInsert_echo_duplicates_optimistic :
    onMessageInsert [optimisticEntry] echoRow =
      [optimisticEntry, echoRow.toLocal] ∧
    ([optimisticEntry, echoRow.toLocal].filter
        (fun m => m.sender_id == 0 && m.content == "hi")).length = 2 := by
  constructor
  · decide
  · decide

/-! ## C4: closing the conversation view -/

/-- C4: evaluating the close of a successfully initialized session for room
0 of users 0 and 1.  Initialization opens both feeds, and the unsubscribe
closure of chat.ts lines 154 to 157 would remove both — but that closure is
the return value of the async `initializeChat`, which the effect callback
discards, so the registered cleanup is `none` and closing the view leaves
both realtime subscriptions active. -/
theorem closeView_leaves_subscriptions_active :
    (initializeChat dbEmpty 0 1 5 none).subs =
      [⟨0, .messagesFeed⟩, ⟨0, .typingFeed⟩] ∧
    useChatEffectCleanup (some 0) = none ∧
    closeView (useChatEffectCleanup (some 0))
        (initializeChat dbEmpty 0 1 5 none).subs =
      [⟨0, .messagesFeed⟩, ⟨0, .typingFeed⟩] ∧
    initializeChatCleanup 0 [⟨0, .messagesFeed⟩, ⟨0, .typingFeed⟩] = [] := by
  refine ⟨?_, rfl, ?_, by decide⟩ <;>
    simp [initializeChat, resolveRoom, resolveRoomCreate, insertRoom, findRoom,
      dbEmpty, closeView, useChatEffectCleanup, List.mergeSort_nil]

/-! ## C5: failure during session initialization -/

/-- In the embedded store model room resolution always succeeds: the only
insert failure is the unique-constraint violation, and then the recovery
re-query finds the existing row. -/
lemma resolveRoom_ok (db : DB) (s o t : Nat) :
    ∃ r db1, resolveRoom db s o t = .ok (r, db1) := by
  unfold resolveRoom
  cases hfind : findRoom db s o with
  | some r => exact ⟨r, db, rfl⟩
  | none =>
    exact ⟨_, _, resolveRoomCreate_of_no_room t (findRoom_eq_none_iff.mp hfind)⟩

/-- C5 (amended): a failure during session initialization is caught by the
catch block of chat.ts lines 158 to 161, which logs it and clears the
loading flag: no error value is surfaced to the caller, and state already
set before the failure point is kept.  A failed room resolution leaves the
session empty, while a failed history load happens after `setRoom` ran, so
the session ends with the room set, no messages and no subscriptions — a
partially initialized state rather than a surfaced ChatInitFailed. -/
theorem initializeChat_failure_semantics (db : DB) (A B t : Nat) :
    initializeChat db A B t (some .roomResolution) =
      ⟨none, [], false, [], none⟩ ∧
    (initializeChat db A B t (some .historyLoad)).surfacedError = none ∧
    (initializeChat db A B t (some .historyLoad)).loading = false ∧
    (initializeChat db A B t (some .historyLoad)).messages = [] ∧
    (initializeChat db A B t (some .historyLoad)).subs = [] ∧
    (∃ rm, (initializeChat db A B t (some .historyLoad)).room = some rm) := by
  obtain ⟨r, db1, hok⟩ := resolveRoom_ok db A B t
  have hres : initializeChat db A B t (some .historyLoad) =
      { room := some r, messages := [], loading := false, subs := [],
        surfacedError := none } := by
    unfold initializeChat
    rw [if_neg (by decide)]
    simp [hok]
  refine ⟨rfl, ?_, ?_, ?_, ?_, ⟨r, ?_⟩⟩ <;> rw [hres]

/-- C5 counterexample: at the concrete session of users 0 and 1 over the
empty store, a failed history load surfaces no error to the caller and
leaves the resolved room set with the loading flag cleared — a partial
state instead of the claimed surfaced ChatInitFailed with no partial
state. -/
theorem initializeChat_history_failure_counterexample :
    (initializeChat dbEmpty 0 1 5 (some .historyLoad)).surfacedError = none ∧
    (initializeChat dbEmpty 0 1 5 (some .historyLoad)).room =
      some ⟨0, 0, 1, 5, 5, 5⟩ ∧
    (initializeChat dbEmpty 0 1 5 (some .historyLoad)).loading = false := by
  have hfind : findRoom dbEmpty 0 1 = none := by
    simp [findRoom, dbEmpty, List.mergeSort_nil]
  have h1 : resolveRoom dbEmpty 0 1 5 = .ok (⟨0, 0, 1, 5, 5, 5⟩,
      ⟨[⟨0, 0, 1, 5, 5, 5⟩], [], [], 1, 0⟩) := by
    unfold resolveRoom
    rw [hfind]
    exact resolveRoomCreate_of_no_room 5 (findRoom_eq_none_iff.mp hfind)
  refine ⟨?_, ?_, ?_⟩ <;> simp [initializeChat, h1]

/-- Witness for the amended C5 theorem at the concrete session of users 0
and 1 over the store that already holds their room. -/
theorem initializeChat_failure_semantics_witness :
    initializeChat dbWithPrior 0 1 9 (some .roomResolution) =
      ⟨none, [], false, [], none⟩ ∧
    (initializeChat dbWithPrior 0 1 9 (some .historyLoad)).surfacedError =
      none :=
  ⟨(initializeChat_failure_semantics dbWithPrior 0 1 9).1,
   (initializeChat_failure_semantics dbWithPrior 0 1 9).2.1⟩

/-! ## C6: read receipts -/

/-- C6: under the row-level security of `chat_messages`, `markAsRead` is a
universal silent no-op for every caller distinct from the other user: the
policy USING clause shows the update only rows whose sender is the caller,
while the client filter demands the sender be the other user, so zero rows
match — `read_at` is never set, the store is unchanged and nothing is
surfaced, hence the claimed setting of `read_at` by the receiver and its
preservation across repeated calls never occur in the program. -/
theorem markAsRead_rls_noop (uid other : Nat) (db : DB) (mid t : Nat)
    (h : uid ≠ other) :
    markAsRead (some uid) other db mid t = (db, none) := by
  have hhit : ∀ m : ChatMessage,
      (m.id == mid && m.sender_id == other && m.sender_id == uid) = false := by
    intro m
    cases hb : (m.id == mid && m.sender_id == other && m.sender_id == uid) with
    | false => rfl
    | true =>
      exfalso
      simp only [Bool.and_eq_true, beq_iff_eq] at hb
      exact h (hb.2.symm.trans hb.1.2)
  show (if (db.messages.filter (fun m =>
        m.id == mid && m.sender_id == other && m.sender_id == uid)).any
          (fun m => m.deleted_at == none) then
      (db, none)
    else
      ({ db with messages := db.messages.map (fun m =>
          if m.id == mid && m.sender_id == other && m.sender_id == uid then
            { m with read_at := some t }
          else m) }, none)) = ((db, none) : DB × Option DbError)
  have hfil : db.messages.filter (fun m =>
      m.id == mid && m.sender_id == other && m.sender_id == uid) = [] := by
    apply List.filter_eq_nil_iff.mpr
    intro m _
    simp [hhit m]
  rw [hfil]
  simp only [List.any_nil, Bool.false_eq_true, if_false]
  have hmap : db.messages.map (fun m =>
      if m.id == mid && m.sender_id == other && m.sender_id == uid then
        { m with read_at := some t }
      else m) = db.messages.map id := by
    apply List.map_congr_left
    intro m _
    rw [if_neg]
    · rfl
    · simp [hhit m]
  rw [hmap, List.map_id]

/-- Witness for C6 at the failing input: user 0, the receiver, marks the
unread message 10 of user 1 as read; the store is returned unchanged —
`read_at` stays null — and no error is surfaced. -/
theorem markAsRead_rls_noop_witness :
    (0 : Nat) ≠ 1 ∧
    markAsRead (some 0) 1 dbOneFromOther 10 100 = (dbOneFromOther, none) :=
  ⟨by decide, markAsRead_rls_noop 0 1 dbOneFromOther 10 100 (by decide)⟩

/-! ## C7: soft delete -/

/-- C7 (amended): `deleteMessage` raises no error whether or not the caller
is the sender; it updates in place only rows whose id matches and whose
sender is the caller, so a request naming a message of another sender
matches no row and leaves the store entirely unchanged — a silent no-op
rather than an Unauthorized rejection — while a delete by the sender sets
`deleted_at` without removing the row. -/
theorem deleteMessage_semantics (uid : Nat) (db : DB) (mid t : Nat) :
    (deleteMessage (some uid) db mid t).2 = none ∧
    ((deleteMessage (some uid) db mid t).1).messages.length =
      db.messages.length ∧
    (∀ (i : Nat) (m : ChatMessage), db.messages[i]? = some m →
      (m.sender_id ≠ uid →
        ((deleteMessage (some uid) db mid t).1).messages[i]? = some m) ∧
      ((m.id = mid ∧ m.sender_id = uid) →
        ((deleteMessage (some uid) db mid t).1).messages[i]? =
          some { m with deleted_at := some t })) ∧
    ((∀ m ∈ db.messages, m.sender_id ≠ uid) →
      (deleteMessage (some uid) db mid t).1 = db) := by
  refine ⟨rfl, by simp [deleteMessage], ?_, ?_⟩
  · intro i m hm
    have hres : ((deleteMessage (some uid) db mid t).1).messages[i]? =
        some (if m.id == mid && m.sender_id == uid then
          { m with deleted_at := some t } else m) := by
      simp [deleteMessage, List.getElem?_map, hm]
    constructor
    · intro h
      rw [hres, if_neg]
      simp [Bool.and_eq_true, beq_iff_eq, h]
    · intro hc
      rw [hres, if_pos]
      simp [Bool.and_eq_true, beq_iff_eq, hc.1, hc.2]
  · intro hall
    show { db with messages := db.messages.map _ } = db
    have h1 : db.messages.map (fun m =>
        if m.id == mid && m.sender_id == uid then
          { m with deleted_at := some t } else m) = db.messages.map id := by
      apply List.map_congr_left
      intro m hmem
      rw [if_neg]
      · rfl
      · simp [Bool.and_eq_true, beq_iff_eq, hall m hmem]
    rw [h1, List.map_id]

/-- C7 counterexample: user 1 requests deletion of message 10, which was
sent by user 0.  The operation completes with no error and the store is
unchanged — a silent no-op, not the claimed rejection with an Unauthorized
error. -/
theorem deleteMessage_nonsender_silent_noop :
    deleteMessage (some 1) dbOneFromSelf 10 9 = (dbOneFromSelf, none) := by
  decide

/-- Witness for the amended C7 theorem: the sender deletes their own
message, `deleted_at` is set, and a non-sender caller leaves the store
unchanged. -/
theorem deleteMessage_semantics_witness :
    ((deleteMessage (some 0) dbOneFromSelf 10 9).1).messages[0]? =
      some ⟨10, 0, 0, "hi", 5, none, some 9⟩ ∧
    (deleteMessage (some 1) dbOneFromSelf 10 9).1 = dbOneFromSelf :=
  ⟨((deleteMessage_semantics 0 dbOneFromSelf 10 9).2.2.1 0
      ⟨10, 0, 0, "hi", 5, none, none⟩ (by decide)).2 (by decide),
   (deleteMessage_semantics 1 dbOneFromSelf 10 9).2.2.2 (by decide)⟩

/-! ## C8: message history ordering and completeness -/

/-- C8: the message history of a room is a finite sequence in non-decreasing
creation-time order, and its members are exactly the stored rows of the
room — soft-deleted rows, which keep their `deleted_at` marker, are
included rather than filtered out. -/
theorem listMessages_sorted_and_complete (db : DB) (roomId : Nat) :
    (listMessages db roomId).Pairwise
      (fun a b => a.created_at ≤ b.created_at) ∧
    (∀ m : ChatMessage, m ∈ listMessages db roomId ↔
      (m ∈ db.messages ∧ m.room_id = roomId)) := by
  constructor
  · have h := @List.sorted_mergeSort ChatMessage
      (fun a b => decide (a.created_at ≤ b.created_at))
      (fun a b c hab hbc => by
        simp only [decide_eq_true_iff] at hab hbc ⊢
        omega)
      (fun a b => by
        simp only [Bool.or_eq_true, decide_eq_true_iff]
        omega)
      (db.messages.filter (fun m => m.room_id == roomId))
    exact h.imp (fun hab => by simpa using hab)
  · intro m
    simp [listMessages, List.mem_mergeSort, List.mem_filter, beq_iff_eq]

/-! ## C9: passive expiry of the typing flag -/

/-- Dropping the head of a trace of length at least two does not change the
result of the overwriting fold. -/
lemma runTypingTrace_cons_cons (a c : Nat × Bool) (l : List (Nat × Bool)) :
    runTypingTrace (a :: c :: l) = runTypingTrace (c :: l) := rfl

/-- An overwriting fold over a chronologically sorted trace ends false when
every set-to-true mutation is strictly followed by some set-to-false
mutation. -/
lemma runTypingTrace_false (trace : List (Nat × Bool))
    (hsorted : trace.Pairwise (fun a b => a.1 ≤ b.1))
    (hcover : ∀ a ∈ trace, a.2 = true →
      ∃ b ∈ trace, b.2 = false ∧ a.1 < b.1) :
    runTypingTrace trace = false := by
  induction trace with
  | nil => rfl
  | cons a rest ih =>
    cases rest with
    | nil =>
      cases ha : a.2 with
      | false => simpa [runTypingTrace] using ha
      | true =>
        obtain ⟨b, hb, hbf, hlt⟩ :=
          hcover a (List.mem_cons_self a []) ha
        rw [List.mem_singleton] at hb
        rw [hb] at hlt
        exact absurd hlt (by omega)
    | cons c l =>
      rw [runTypingTrace_cons_cons]
      apply ih (List.pairwise_cons.mp hsorted).2
      intro x hx hxt
      obtain ⟨b, hb, hbf, hlt⟩ := hcover x (List.mem_cons_of_mem a hx) hxt
      rcases List.mem_cons.mp hb with hba | hbr
      · exfalso
        have hax := (List.pairwise_cons.mp hsorted).1 x hx
        rw [hba] at hlt
        omega
      · exact ⟨b, hbr, hbf, hlt⟩

/-- C9: once the other user has been idle past the auto-clear window, the
local "is typing" flag is false again even though no explicit false write
and no deletion notification was ever delivered: each delivered typing
payload sets the flag and schedules a clear 3000 milliseconds later
(chat.ts lines 142 to 148), so any chronologically ordered delivery of the
mutations up to a time at least 3000 milliseconds past the last payload
ends with a clear. -/
theorem typing_flag_false_after_expiry (eventTimes : List Nat) (T : Nat)
    (trace : List (Nat × Bool))
    (hperm : trace.Perm
      ((typingActions eventTimes).filter (fun a => a.1 ≤ T)))
    (hsorted : trace.Pairwise (fun a b => a.1 ≤ b.1))
    (hT : ∀ t ∈ eventTimes, t + 3000 ≤ T) :
    runTypingTrace trace = false := by
  have hfull : (typingActions eventTimes).filter (fun a => a.1 ≤ T) =
      typingActions eventTimes := by
    apply List.filter_eq_self.mpr
    intro a ha
    simp only [typingActions, List.mem_append, List.mem_map] at ha
    rcases ha with ⟨t, ht, rfl⟩ | ⟨t, ht, rfl⟩
    · have := hT t ht
      simp only [decide_eq_true_iff]
      omega
    · have := hT t ht
      simp only [decide_eq_true_iff]
      omega
  rw [hfull] at hperm
  apply runTypingTrace_false trace hsorted
  intro a ha hat
  have ha2 : a ∈ typingActions eventTimes := hperm.subset ha
  simp only [typingActions, List.mem_append, List.mem_map] at ha2
  rcases ha2 with ⟨t, ht, rfl⟩ | ⟨t, ht, heq⟩
  · refine ⟨(t + 3000, false), ?_, rfl, by omega⟩
    apply hperm.symm.subset
    simp only [typingActions, List.mem_append, List.mem_map]
    right
    exact ⟨t, ht, rfl⟩
  · exfalso
    rw [← heq] at hat
    simp at hat

/-- Witness for C9: one typing payload delivered at time 0, observed at time
3000, with the chronologically ordered trace of its two mutations. -/
theorem typing_flag_false_after_expiry_witness :
    ([((0:Nat), true), (3000, false)]).Perm
        ((typingActions [0]).filter (fun a => a.1 ≤ 3000)) ∧
    ([((0:Nat), true), (3000, false)]).Pairwise (fun a b => a.1 ≤ b.1) ∧
    (∀ t ∈ [(0:Nat)], t + 3000 ≤ 3000) ∧
    runTypingTrace [((0:Nat), true), (3000, false)] = false :=
  ⟨by decide, by decide, by decide,
    typing_flag_false_after_expiry [0] 3000 [(0, true), (3000, false)]
      (by decide) (by decide) (by decide)⟩

/-! ## C10: operations without an authenticated user -/

/-- C10: with no authenticated user each of sendMessage, setTyping,
markAsRead and deleteMessage is a silent no-op, and so are sendMessage and
setTyping when the room has not yet been resolved: the store and the local
list are returned unchanged and no error is raised or surfaced. -/
theorem unauthenticated_ops_silent_noop (room : Option ChatRoom) (u : Nat)
    (msgs : List LocalMessage) (db : DB) (content : String) (b : Bool)
    (mid t : Nat) (w : Option DbError) :
    sendMessage none room msgs db content t w = (msgs, db, none) ∧
    sendMessage (some u) none msgs db content t w = (msgs, db, none) ∧
    setTyping none room db b t = (db, none) ∧
    setTyping (some u) none db b t = (db, none) ∧
    markAsRead none u db mid t = (db, none) ∧
    deleteMessage none db mid t = (db, none) := by
  refine ⟨?_, rfl, ?_, rfl, rfl, rfl⟩
  · cases room <;> rfl
  · cases room <;> rfl

/-- Witness for C10 at concrete inputs: an unauthenticated send and a send
with an unresolved room both leave everything unchanged. -/
theorem unauthenticated_ops_silent_noop_witness :
    sendMessage none (some sampleRoom) [] dbEmpty "hi" 9 none =
      ([], dbEmpty, none) ∧
    sendMessage (some 0) none [] dbEmpty "hi" 9 none =
      ([], dbEmpty, none) :=
  ⟨(unauthenticated_ops_silent_noop (some sampleRoom) 0 [] dbEmpty "hi"
      true 0 9 none).1,
   (unauthenticated_ops_silent_noop none 0 [] dbEmpty "hi"
      true 0 9 none).2.1⟩

end SpeedApp
